import Mathlib

/-!
Shallow embedding of `src/extension-dl/src/config.ts` (the `ConfigInstance`
class of the chzzkExt extension) and verification of its change-propagation
and synchronization behaviour.

Modelling choices:
* `ConfigData` mirrors the source union `string | boolean | number`
  (numbers are modelled as integers; the diff only compares values for
  strict equality).
* A JS object `{ [key: string]: T }` is modelled as an association list
  with unique keys; reading an absent key yields `none` (JS `undefined`).
* Listener function references are modelled by identifiers (`Nat`): two
  registrations with the same identifier stand for the same function
  reference, so JS identity comparison `l !== listener` becomes
  identifier disequality.  A condition listener keeps, besides its
  identity, the Boolean predicate the source applies to the changed keys.
* Listener invocations are recorded as an `Event` trace in source order
  instead of running callbacks, so counting and ordering claims become
  statements about the trace.
-/

/-- Values stored in the configuration: `string | boolean | number`. -/
inductive ConfigData where
  | str : String → ConfigData
  | bool : Bool → ConfigData
  | num : Int → ConfigData
deriving DecidableEq

/-- A JS object `{ [key: string]: ConfigData }`, as an association list. -/
abbrev ConfigObject := List (String × ConfigData)

/-- Reading `o[key]` from a JS object: `none` models `undefined`. -/
def alGet {α : Type} : List (String × α) → String → Option α
  | [], _ => none
  | (k', v) :: rest, k => if k' = k then some v else alGet rest k

/-- Writing `o[key] = v` on a JS object: update in place, else append. -/
def alSet {α : Type} : List (String × α) → String → α → List (String × α)
  | [], k, v => [(k, v)]
  | (k', v') :: rest, k, v =>
      if k' = k then (k, v) :: rest else (k', v') :: alSet rest k v

/-- `Object.keys` of a JS object. -/
def objKeys (m : ConfigObject) : List String := m.map Prod.fst

/-- Deduplication keeping first occurrences, with an accumulator of keys
already seen; models iteration order of a JS `Set` built from a list. -/
def dedupAux : List String → List String → List String
  | [], _ => []
  | k :: rest, seen =>
      if k ∈ seen then dedupAux rest seen else k :: dedupAux rest (k :: seen)

/-- `Array.from(new Set(l))`: the elements of `l` with first occurrences kept. -/
def dedupKeys (l : List String) : List String := dedupAux l []

/-- The diff computed in the storage-change handler and in both sync loops:
`Array.from(new Set([...Object.keys(newConfig), ...Object.keys(oldConfig)]))`
filtered to the keys where `newConfig[key] !== oldConfig[key]`. -/
def diffKeys (newConfig oldConfig : ConfigObject) : List String :=
  (dedupKeys (objKeys newConfig ++ objKeys oldConfig)).filter
    (fun k => decide (alGet newConfig k ≠ alGet oldConfig k))

/-- A registered condition listener: its reference identity plus the
predicate `(changedKey: string[]) => boolean` it evaluates. -/
structure CoditionListener where
  id : Nat
  pred : List String → Bool

/-- The mutable state of a `ConfigInstance` object. -/
structure ConfigInstance where
  config : ConfigObject
  listeners : List (String × List Nat)
  anyListeners : List Nat
  conditionListeners : List (CoditionListener × Nat)

/-- One recorded listener invocation: a per-key listener call
`l(key, newData)`, an any-listener call `l()`, or a condition-listener
callback call `l()`. -/
inductive Event where
  | key : Nat → String → Option ConfigData → Event
  | any : Nat → Event
  | cond : Nat → Event
deriving DecidableEq

/-- True on per-key listener invocations. -/
def Event.isKey : Event → Bool
  | .key _ _ _ => true
  | _ => false

/-- True on any-listener invocations. -/
def Event.isAny : Event → Bool
  | .any _ => true
  | _ => false

/-- True on condition-listener invocations. -/
def Event.isCond : Event → Bool
  | .cond _ => true
  | _ => false

/-- True on invocations of the per-key listener `lid` for key `k`. -/
def Event.isKeyFor (lid : Nat) (k : String) : Event → Bool
  | .key l k' _ => decide (l = lid) && decide (k' = k)
  | _ => false

/-- True on invocations of the any-listener `lid`. -/
def Event.isAnyFor (lid : Nat) : Event → Bool
  | .any l => decide (l = lid)
  | _ => false

/-- True when, among any- and condition-listener invocations of the trace,
every any-listener call precedes every condition-listener call. -/
def anysThenConds (tr : List Event) : Bool :=
  decide (tr.filter (fun e => e.isAny || e.isCond)
    = tr.filter Event.isAny ++ tr.filter Event.isCond)

/-- True when, among key- and any-listener invocations of the trace, every
key-listener call precedes every any-listener call. -/
def keysThenAnys (tr : List Event) : Bool :=
  decide (tr.filter (fun e => e.isKey || e.isAny)
    = tr.filter Event.isKey ++ tr.filter Event.isAny)

/-- True when, among any- and condition-listener invocations of the trace,
every condition-listener call precedes every any-listener call. -/
def condsThenAnys (tr : List Event) : Bool :=
  decide (tr.filter (fun e => e.isAny || e.isCond)
    = tr.filter Event.isCond ++ tr.filter Event.isAny)

/-- The module-level `defaultConfig` object. -/
def defaultConfig : ConfigObject :=
  [("vodDownload", .bool false), ("clipDownload", .bool true)]

namespace ConfigInstance

/-- `get(key, defaultValue?)`: the ternary on
`typeof this.config[key] == "undefined"`; a missing second argument is
`defaultValue = none`. -/
def get (s : ConfigInstance) (key : String) (defaultValue : Option ConfigData) :
    Option ConfigData :=
  match alGet s.config key with
  | none => defaultValue
  | some v => some v

/-- `emit(key, newData)`: early-returns when `this.listeners[key]` is
absent, otherwise calls every listener of the key in order.  The data
argument is an `Option` because the storage-change handler passes
`newConfig[key]`, which can be `undefined`. -/
def emit (s : ConfigInstance) (key : String) (newData : Option ConfigData) :
    List Event :=
  match alGet s.listeners key with
  | none => []
  | some ls => ls.map (fun l => Event.key l key newData)

/-- `emitAny()`: calls every any-listener in order. -/
def emitAny (s : ConfigInstance) : List Event :=
  s.anyListeners.map Event.any

/-- `emitCondition(changes)`: for each registered pair in order, calls the
callback when the condition predicate returns true on `changes`. -/
def emitCondition (s : ConfigInstance) (changes : List String) : List Event :=
  s.conditionListeners.filterMap
    (fun cl => if cl.1.pred changes then some (Event.cond cl.2) else none)

/-- `set(key, value)`: assign into `this.config`, then `emit`, then
`emitAny`; returns the new state and the invocation trace. -/
def set (s : ConfigInstance) (key : String) (value : ConfigData) :
    ConfigInstance × List Event :=
  let s' := { s with config := alSet s.config key value }
  (s', s'.emit key (some value) ++ s'.emitAny)

/-- `load(cfg)`: replace `this.config` wholesale, then `emitAny`. -/
def load (s : ConfigInstance) (cfg : ConfigObject) : ConfigInstance × List Event :=
  let s' := { s with config := cfg }
  (s', s'.emitAny)

/-- `addListener(key, listener)`: create the list for the key when absent,
then push. -/
def addListener (s : ConfigInstance) (key : String) (listener : Nat) :
    ConfigInstance :=
  { s with listeners :=
      alSet s.listeners key (((alGet s.listeners key).getD []) ++ [listener]) }

/-- `removeListener(key, listener)`: early-return when the key has no list,
otherwise keep the entries that are not identical to `listener`. -/
def removeListener (s : ConfigInstance) (key : String) (listener : Nat) :
    ConfigInstance :=
  match alGet s.listeners key with
  | none => s
  | some ls =>
      { s with listeners :=
          alSet s.listeners key (ls.filter (fun l => decide (l ≠ listener))) }

/-- `addAnyListener(listener)`: push. -/
def addAnyListener (s : ConfigInstance) (listener : Nat) : ConfigInstance :=
  { s with anyListeners := s.anyListeners ++ [listener] }

/-- `removeAnyListener(listener)`: keep entries not identical to `listener`. -/
def removeAnyListener (s : ConfigInstance) (listener : Nat) : ConfigInstance :=
  { s with anyListeners := s.anyListeners.filter (fun l => decide (l ≠ listener)) }

/-- `addConditionListener(condition, listener)`: push the pair. -/
def addConditionListener (s : ConfigInstance) (condition : CoditionListener)
    (listener : Nat) : ConfigInstance :=
  { s with conditionListeners := s.conditionListeners ++ [(condition, listener)] }

/-- `removeConditionListener(condition, listener)`: the source keeps the
pairs with `c !== condition && l !== listener`. -/
def removeConditionListener (s : ConfigInstance) (conditionId listener : Nat) :
    ConfigInstance :=
  let kept := s.conditionListeners.filter
    (fun cl => decide (cl.1.id ≠ conditionId) && decide (cl.2 ≠ listener))
  { s with conditionListeners := kept }

/-- Body of the `key == "config"` branch of the `chrome.storage.onChanged`
handler installed by the constructor: diff the incoming `newValue` against
the current map, `emit` each changed key with `newConfig[key]`, replace the
map, `emitAny`, then `emitCondition(diffs)`. -/
def handleConfigChange (s : ConfigInstance) (newConfig : ConfigObject) :
    ConfigInstance × List Event :=
  let oldConfig := s.config
  let diffs := diffKeys newConfig oldConfig
  let keyEvents := diffs.flatMap (fun k => s.emit k (alGet newConfig k))
  let s' := { s with config := newConfig }
  (s', keyEvents ++ s'.emitAny ++ s'.emitCondition diffs)

/-- The whole `chrome.storage.onChanged` handler: iterate the changed
entries in order and process those whose storage key is `"config"`, using
each entry's `newValue`. -/
def onStorageChanged (s : ConfigInstance) (changes : List (String × ConfigObject)) :
    ConfigInstance × List Event :=
  changes.foldl
    (fun acc kv =>
      if kv.1 = "config" then
        let r := acc.1.handleConfigChange kv.2
        (r.1, acc.2 ++ r.2)
      else acc)
    (s, [])

/-- One iteration of the interval body of `syncConfig()`, applied to the
fetched snapshot: diff, early-return on an empty diff, otherwise
`emitCondition(diffs)` then `load(config)`. -/
def syncTick (s : ConfigInstance) (config : ConfigObject) :
    ConfigInstance × List Event :=
  let diffs := diffKeys config s.config
  if diffs.length = 0 then (s, [])
  else
    let condEvents := s.emitCondition diffs
    let r := s.load config
    (r.1, condEvents ++ r.2)

/-- One iteration of the interval body of `syncConfigBackground(main)`:
identical to `syncTick`, with the returned flag recording whether the
`main()` callback was invoked. -/
def syncTickBackground (s : ConfigInstance) (config : ConfigObject) :
    (ConfigInstance × List Event) × Bool :=
  let diffs := diffKeys config s.config
  if diffs.length = 0 then ((s, []), false)
  else
    let condEvents := s.emitCondition diffs
    let r := s.load config
    ((r.1, condEvents ++ r.2), true)

end ConfigInstance

/-! Helper lemmas about the embedding. -/

/-! Concrete stores and maps used by witnesses and counterexamples. -/

/-- Old map of the worked diff example: a maps to 1 and b maps to 2. -/
def c1OldMap : ConfigObject := [("a", .num 1), ("b", .num 2)]

/-- New map of the worked diff example: a maps to 1, b maps to 3, c maps to 4. -/
def c1NewMap : ConfigObject := [("a", .num 1), ("b", .num 3), ("c", .num 4)]

/-- A store holding one key with one registered key listener and one
any-listener, used as a witness input. -/
def c6State : ConfigInstance :=
  { config := [("clipDownload", .bool true)], listeners := [("clipDownload", [1])],
    anyListeners := [2], conditionListeners := [] }

/-- A store with a single stored key and no listeners, used as a witness
input for reads. -/
def c7State : ConfigInstance :=
  { config := [("vodDownload", .bool false)], listeners := [], anyListeners := [],
    conditionListeners := [] }

/-- A storage-change notification whose only entry is for a storage key
other than config. -/
def c10Changes : List (String × ConfigObject) := [("other", [("a", .num 5)])]

/-- Store with a key listener registered for key b, used for C2. -/
def c2State : ConfigInstance :=
  { config := [("b", .num 1)], listeners := [("b", [0])], anyListeners := [],
    conditionListeners := [] }

/-- Snapshot changing the value of key b, used for C2. -/
def c2NewMap : ConfigObject := [("b", .num 2)]

/-- Store with one any-listener, used for C3. -/
def c3State : ConfigInstance :=
  { config := [("a", .num 1)], listeners := [], anyListeners := [0],
    conditionListeners := [] }

/-- Snapshot identical to the config of c3State, used for C3. -/
def c3NewMap : ConfigObject := [("a", .num 1)]

/-- Snapshot differing from the config of c3State, used for C3. -/
def c3DiffMap : ConfigObject := [("a", .num 2)]

/-- Store with an any-listener and a condition listener whose predicate
always returns true, used for C4. -/
def c4State : ConfigInstance :=
  { config := [("a", .num 1)], listeners := [], anyListeners := [0],
    conditionListeners := [({ id := 1, pred := fun _ => true }, 2)] }

/-- Snapshot changing key a, used for C4. -/
def c4NewMap : ConfigObject := [("a", .num 2)]

/-- Store with a key listener for x and an any-listener, used for C5. -/
def c5State : ConfigInstance :=
  { config := [], listeners := [("x", [3])], anyListeners := [4],
    conditionListeners := [] }

/-- Store with a single registered condition listener pair, used for C8:
the condition has identity 1 and the callback has identity 2. -/
def c8State : ConfigInstance :=
  { config := [], listeners := [], anyListeners := [],
    conditionListeners := [({ id := 1, pred := fun _ => true }, 2)] }

/-- Witness store with one key listener, used for the C8 witness. -/
def c8WState : ConfigInstance :=
  { config := [], listeners := [("a", [1])], anyListeners := [],
    conditionListeners := [] }

theorem mem_dedupAux (k : String) (l : List String) :
    ∀ seen, (k ∈ dedupAux l seen ↔ k ∈ l ∧ k ∉ seen) := by
  induction l with
  | nil => intro seen; simp [dedupAux]
  | cons k' rest ih =>
    intro seen
    by_cases h : k' ∈ seen
    · rw [dedupAux, if_pos h, ih seen]
      constructor
      · rintro ⟨hr, hs⟩; exact ⟨List.mem_cons_of_mem _ hr, hs⟩
      · rintro ⟨hm, hs⟩
        rcases List.mem_cons.mp hm with rfl | hr
        · exact absurd h hs
        · exact ⟨hr, hs⟩
    · rw [dedupAux, if_neg h]
      constructor
      · intro hm
        rcases List.mem_cons.mp hm with rfl | hr
        · exact ⟨List.mem_cons_self _ _, h⟩
        · have h2 := (ih (k' :: seen)).mp hr
          exact ⟨List.mem_cons_of_mem _ h2.1,
            fun hs => h2.2 (List.mem_cons_of_mem _ hs)⟩
      · rintro ⟨hm, hs⟩
        rcases List.mem_cons.mp hm with rfl | hr
        · exact List.mem_cons_self _ _
        · by_cases hk : k = k'
          · subst hk; exact List.mem_cons_self _ _
          · refine List.mem_cons_of_mem _ ((ih (k' :: seen)).mpr ⟨hr, ?_⟩)
            simp [List.mem_cons, hk, hs]

theorem nodup_dedupAux (l : List String) : ∀ seen, (dedupAux l seen).Nodup := by
  induction l with
  | nil => intro seen; simp [dedupAux]
  | cons k' rest ih =>
    intro seen
    by_cases h : k' ∈ seen
    · rw [dedupAux, if_pos h]; exact ih seen
    · rw [dedupAux, if_neg h]
      refine List.nodup_cons.mpr ⟨fun hm => ?_, ih _⟩
      exact ((mem_dedupAux k' rest _).mp hm).2 (List.mem_cons_self _ _)

theorem mem_dedupKeys {k : String} {l : List String} : k ∈ dedupKeys l ↔ k ∈ l := by
  simp [dedupKeys, mem_dedupAux]

theorem nodup_dedupKeys (l : List String) : (dedupKeys l).Nodup :=
  nodup_dedupAux l []

theorem mem_diffKeys {newConfig oldConfig : ConfigObject} {k : String} :
    k ∈ diffKeys newConfig oldConfig ↔
      ((k ∈ objKeys newConfig ∨ k ∈ objKeys oldConfig) ∧
        alGet newConfig k ≠ alGet oldConfig k) := by
  simp [diffKeys, List.mem_filter, mem_dedupKeys]

theorem nodup_diffKeys (newConfig oldConfig : ConfigObject) :
    (diffKeys newConfig oldConfig).Nodup :=
  (nodup_dedupKeys _).filter _

theorem alGet_alSet_self {α : Type} (al : List (String × α)) (k : String) (v : α) :
    alGet (alSet al k v) k = some v := by
  induction al with
  | nil => simp [alSet, alGet]
  | cons p rest ih =>
    obtain ⟨k', v'⟩ := p
    by_cases h : k' = k
    · rw [alSet, if_pos h, alGet, if_pos rfl]
    · rw [alSet, if_neg h, alGet, if_neg h]
      exact ih

theorem alGet_alSet_ne {α : Type} (al : List (String × α)) {k k' : String} (v : α)
    (h : k' ≠ k) : alGet (alSet al k v) k' = alGet al k' := by
  induction al with
  | nil => simp [alSet, alGet, Ne.symm h]
  | cons p rest ih =>
    obtain ⟨k'', v''⟩ := p
    by_cases hk : k'' = k
    · subst hk
      rw [alSet, if_pos rfl, alGet, alGet, if_neg (fun hh => h hh.symm),
        if_neg (fun hh => h hh.symm)]
    · rw [alSet, if_neg hk, alGet, alGet]
      by_cases hk2 : k'' = k'
      · rw [if_pos hk2, if_pos hk2]
      · rw [if_neg hk2, if_neg hk2]
        exact ih

theorem alSet_of_alGet {α : Type} (al : List (String × α)) (k : String) (v : α)
    (h : alGet al k = some v) : alSet al k v = al := by
  induction al with
  | nil => simp [alGet] at h
  | cons p rest ih =>
    obtain ⟨k', v'⟩ := p
    by_cases hk : k' = k
    · rw [alGet, if_pos hk] at h
      rw [alSet, if_pos hk, Option.some.inj h, hk]
    · rw [alGet, if_neg hk] at h
      rw [alSet, if_neg hk, ih h]

theorem mem_emit {s : ConfigInstance} {k : String} {d : Option ConfigData} {e : Event}
    (h : e ∈ s.emit k d) : ∃ l, e = Event.key l k d := by
  unfold ConfigInstance.emit at h
  split at h
  · simp at h
  · rcases List.mem_map.mp h with ⟨l, _, rfl⟩
    exact ⟨l, rfl⟩

theorem mem_emitAny {s : ConfigInstance} {e : Event} (h : e ∈ s.emitAny) :
    ∃ l, e = Event.any l := by
  rcases List.mem_map.mp h with ⟨l, _, rfl⟩
  exact ⟨l, rfl⟩

theorem mem_emitCondition {s : ConfigInstance} {cs : List String} {e : Event}
    (h : e ∈ s.emitCondition cs) : ∃ l, e = Event.cond l := by
  rcases List.mem_filterMap.mp h with ⟨cl, _, hcl⟩
  split at hcl
  · exact ⟨cl.2, (Option.some.inj hcl).symm⟩
  · simp at hcl

theorem mem_keyEvents {s : ConfigInstance} {newConfig : ConfigObject}
    {l : List String} {e : Event}
    (h : e ∈ l.flatMap (fun k => s.emit k (alGet newConfig k))) :
    ∃ lid k, k ∈ l ∧ e = Event.key lid k (alGet newConfig k) := by
  rcases List.mem_flatMap.mp h with ⟨k, hk, he⟩
  rcases mem_emit he with ⟨lid, rfl⟩
  exact ⟨lid, k, hk, rfl⟩

theorem countP_emit_isKeyFor_self (s : ConfigInstance) (lid : Nat) (k : String)
    (d : Option ConfigData) :
    (s.emit k d).countP (Event.isKeyFor lid k)
      = ((alGet s.listeners k).getD []).countP (fun x => decide (x = lid)) := by
  unfold ConfigInstance.emit
  cases h : alGet s.listeners k with
  | none => simp
  | some ls =>
    rw [Option.getD_some, List.countP_map]
    apply List.countP_congr
    intro x _
    simp [Event.isKeyFor, Function.comp]

theorem countP_emit_isKeyFor_ne (s : ConfigInstance) (lid : Nat) {k k' : String}
    (d : Option ConfigData) (h : k' ≠ k) :
    (s.emit k' d).countP (Event.isKeyFor lid k) = 0 := by
  refine List.countP_eq_zero.mpr (fun e he => ?_)
  rcases mem_emit he with ⟨l, rfl⟩
  simp [Event.isKeyFor, h]

theorem countP_keyEvents_isKeyFor (s : ConfigInstance) (newConfig : ConfigObject)
    (lid : Nat) (k : String) :
    ∀ (l : List String), l.Nodup →
      (l.flatMap (fun k' => s.emit k' (alGet newConfig k'))).countP (Event.isKeyFor lid k)
        = if k ∈ l
          then ((alGet s.listeners k).getD []).countP (fun x => decide (x = lid))
          else 0 := by
  intro l
  induction l with
  | nil => intro _; simp
  | cons k' rest ih =>
    intro hnd
    rcases List.nodup_cons.mp hnd with ⟨hk', hrest⟩
    rw [List.flatMap_cons, List.countP_append, ih hrest]
    by_cases hkk : k' = k
    · subst hkk
      rw [countP_emit_isKeyFor_self s lid k' (alGet newConfig k')]
      rw [if_neg hk', if_pos (List.mem_cons_self _ _), Nat.add_zero]
    · rw [countP_emit_isKeyFor_ne s lid (alGet newConfig k') hkk, Nat.zero_add]
      by_cases hm : k ∈ rest
      · rw [if_pos hm, if_pos (List.mem_cons_of_mem _ hm)]
      · rw [if_neg hm, if_neg]
        intro hc
        rcases List.mem_cons.mp hc with rfl | hr
        · exact hkk rfl
        · exact hm hr

theorem countP_emitAny_isAnyFor (s : ConfigInstance) (aid : Nat) :
    s.emitAny.countP (Event.isAnyFor aid)
      = s.anyListeners.countP (fun x => decide (x = aid)) := by
  unfold ConfigInstance.emitAny
  rw [List.countP_map]
  apply List.countP_congr
  intro x _
  simp [Event.isAnyFor, Function.comp]

theorem filter_eq_nil_of_false {p : Event → Bool} {tr : List Event}
    (h : ∀ e ∈ tr, p e = false) : tr.filter p = [] :=
  List.filter_eq_nil_iff.mpr (fun e he => by rw [h e he]; simp)

theorem filter_eq_self_of_true {p : Event → Bool} {tr : List Event}
    (h : ∀ e ∈ tr, p e = true) : tr.filter p = tr :=
  List.filter_eq_self.mpr h

theorem isAny_of_mem_emitAny {s : ConfigInstance} {e : Event} (h : e ∈ s.emitAny) :
    e.isAny = true ∧ e.isKey = false ∧ e.isCond = false := by
  rcases mem_emitAny h with ⟨l, rfl⟩
  exact ⟨rfl, rfl, rfl⟩

theorem isCond_of_mem_emitCondition {s : ConfigInstance} {cs : List String} {e : Event}
    (h : e ∈ s.emitCondition cs) :
    e.isCond = true ∧ e.isKey = false ∧ e.isAny = false := by
  rcases mem_emitCondition h with ⟨l, rfl⟩
  exact ⟨rfl, rfl, rfl⟩

theorem isKey_of_mem_keyEvents {s : ConfigInstance} {newConfig : ConfigObject}
    {l : List String} {e : Event}
    (h : e ∈ l.flatMap (fun k => s.emit k (alGet newConfig k))) :
    e.isKey = true ∧ e.isAny = false ∧ e.isCond = false := by
  rcases mem_keyEvents h with ⟨lid, k, _, rfl⟩
  exact ⟨rfl, rfl, rfl⟩

/-! Claim theorems. -/

/-- C1: for every pair of configuration maps, the computed ChangeBatch is
exactly the union of the key sets of both maps filtered to the keys whose
values differ under strict inequality, a key present in one map and absent
in the other counting as changed; and on the worked example with old map
c1OldMap and new map c1NewMap the batch is exactly the keys b and c. -/
theorem C1_change_batch :
    (∀ (oldMap newMap : ConfigObject) (k : String),
        k ∈ diffKeys newMap oldMap ↔
          ((k ∈ objKeys newMap ∨ k ∈ objKeys oldMap) ∧
            alGet newMap k ≠ alGet oldMap k))
    ∧ diffKeys c1NewMap c1OldMap = ["b", "c"] :=
  ⟨fun _ _ _ => mem_diffKeys, by decide⟩

/-- C9: the diff computation is symmetric in its two arguments as a set of
keys. -/
theorem C9_diff_symmetric (m1 m2 : ConfigObject) (k : String) :
    k ∈ diffKeys m1 m2 ↔ k ∈ diffKeys m2 m1 := by
  simp only [mem_diffKeys]
  constructor <;> rintro ⟨hm, hne⟩ <;> exact ⟨Or.symm hm, Ne.symm hne⟩

/-- C7: reading an absent key returns the supplied default, and the absent
sentinel when no default is supplied; the embedded read is a total
function, matching the source where any read fault is swallowed and
treated as absent. -/
theorem C7_get_absent (s : ConfigInstance) (k : String) (d : ConfigData)
    (h : alGet s.config k = none) :
    s.get k (some d) = some d ∧ s.get k none = none := by
  unfold ConfigInstance.get
  rw [h]
  exact ⟨rfl, rfl⟩

/-- C7 witness: reading a key missing from a concrete store. -/
theorem C7_get_absent_witness :
    c7State.get "missing" (some (ConfigData.num 7)) = some (ConfigData.num 7)
    ∧ c7State.get "missing" none = none :=
  C7_get_absent c7State "missing" (ConfigData.num 7) (by decide)

/-- C6: a polled-sync tick whose fetched snapshot yields an empty
ChangeBatch invokes no listener and leaves the state unchanged, in both
polled strategies. -/
theorem C6_empty_batch_noop (s : ConfigInstance) (cfg : ConfigObject)
    (h : diffKeys cfg s.config = []) :
    s.syncTick cfg = (s, []) ∧ s.syncTickBackground cfg = ((s, []), false) := by
  unfold ConfigInstance.syncTick ConfigInstance.syncTickBackground
  rw [h]
  exact ⟨rfl, rfl⟩

/-- C6 witness: a tick whose snapshot equals the current map of a concrete
store with registered listeners. -/
theorem C6_empty_batch_noop_witness :
    c6State.syncTick [("clipDownload", ConfigData.bool true)] = (c6State, []) :=
  (C6_empty_batch_noop c6State [("clipDownload", ConfigData.bool true)] (by decide)).1

/-- C10: a storage-change notification none of whose entries is for the
config storage key invokes no listener and leaves the local map unchanged. -/
theorem C10_nonconfig_notification_noop (s : ConfigInstance) :
    ∀ (changes : List (String × ConfigObject)),
      (∀ kv ∈ changes, kv.1 ≠ "config") → s.onStorageChanged changes = (s, []) := by
  intro changes
  induction changes with
  | nil => intro _; rfl
  | cons kv rest ih =>
    intro h
    have hstep : s.onStorageChanged (kv :: rest) = s.onStorageChanged rest := by
      unfold ConfigInstance.onStorageChanged
      simp only [List.foldl_cons]
      rw [if_neg (h kv (List.mem_cons_self _ _))]
    rw [hstep]
    exact ih (fun x hx => h x (List.mem_cons_of_mem _ hx))

/-- C10 witness: a concrete notification for a different storage key leaves
a concrete store untouched. -/
theorem C10_nonconfig_notification_noop_witness :
    c6State.onStorageChanged c10Changes = (c6State, []) :=
  C10_nonconfig_notification_noop c6State c10Changes (by decide)

theorem handleConfigChange_trace (s : ConfigInstance) (newConfig : ConfigObject) :
    (s.handleConfigChange newConfig).2
      = (diffKeys newConfig s.config).flatMap (fun k => s.emit k (alGet newConfig k))
        ++ s.emitAny ++ s.emitCondition (diffKeys newConfig s.config) := rfl

theorem set_trace (s : ConfigInstance) (k : String) (v : ConfigData) :
    (s.set k v).2 = s.emit k (some v) ++ s.emitAny := rfl

theorem syncTick_nil (s : ConfigInstance) (cfg : ConfigObject)
    (h : diffKeys cfg s.config = []) : s.syncTick cfg = (s, []) := by
  unfold ConfigInstance.syncTick
  rw [h]
  rfl

theorem syncTick_trace_pos (s : ConfigInstance) (cfg : ConfigObject)
    (h : diffKeys cfg s.config ≠ []) :
    (s.syncTick cfg).2 = s.emitCondition (diffKeys cfg s.config) ++ s.emitAny := by
  unfold ConfigInstance.syncTick
  rw [if_neg (fun hlen => h (List.length_eq_zero.mp hlen))]
  rfl

/-- C2 counterexample: a polled synchronization cycle whose ChangeBatch
contains key b invokes the key listener registered for b zero times, not
once, because the polled path never calls emit. -/
theorem C2_counterexample :
    "b" ∈ diffKeys c2NewMap c2State.config
    ∧ ((alGet c2State.listeners "b").getD []).countP (fun x => decide (x = 0)) = 1
    ∧ (c2State.syncTick c2NewMap).2.countP (Event.isKeyFor 0 "b") = 0 := by
  decide

/-- C2 amended: in an event-driven synchronization cycle, a key listener
registered once for a key of the ChangeBatch is invoked exactly once
during the cycle, and every invocation it receives for that key carries
the value the new map holds for the key, which is the value the key holds
after the batch is applied; a polled synchronization cycle invokes no key
listener at all. -/
theorem C2_keylistener_per_batch (s : ConfigInstance) (newConfig : ConfigObject)
    (k : String) (lid : Nat)
    (hk : k ∈ diffKeys newConfig s.config)
    (hl : ((alGet s.listeners k).getD []).countP (fun x => decide (x = lid)) = 1) :
    (s.handleConfigChange newConfig).2.countP (Event.isKeyFor lid k) = 1
    ∧ (∀ d, Event.key lid k d ∈ (s.handleConfigChange newConfig).2 →
        d = alGet newConfig k)
    ∧ (∀ cfg : ConfigObject, (s.syncTick cfg).2.countP Event.isKey = 0) := by
  refine ⟨?_, ?_, ?_⟩
  · rw [handleConfigChange_trace, List.countP_append, List.countP_append]
    rw [countP_keyEvents_isKeyFor s newConfig lid k _ (nodup_diffKeys _ _),
      if_pos hk, hl]
    have h1 : s.emitAny.countP (Event.isKeyFor lid k) = 0 :=
      List.countP_eq_zero.mpr (fun e he => by
        rcases mem_emitAny he with ⟨l, rfl⟩
        simp [Event.isKeyFor])
    have h2 : (s.emitCondition (diffKeys newConfig s.config)).countP
        (Event.isKeyFor lid k) = 0 :=
      List.countP_eq_zero.mpr (fun e he => by
        rcases mem_emitCondition he with ⟨l, rfl⟩
        simp [Event.isKeyFor])
    rw [h1, h2]
  · intro d hd
    rw [handleConfigChange_trace] at hd
    rcases List.mem_append.mp hd with hd | hd
    · rcases List.mem_append.mp hd with hd | hd
      · rcases mem_keyEvents hd with ⟨lid', k', _, heq⟩
        injection heq with h1 h2 h3
        subst h2
        exact h3
      · rcases mem_emitAny hd with ⟨l, heq⟩
        simp at heq
    · rcases mem_emitCondition hd with ⟨l, heq⟩
      simp at heq
  · intro cfg
    by_cases hempty : diffKeys cfg s.config = []
    · rw [syncTick_nil s cfg hempty]
      rfl
    · rw [syncTick_trace_pos s cfg hempty, List.countP_append]
      have h1 : (s.emitCondition (diffKeys cfg s.config)).countP Event.isKey = 0 :=
        List.countP_eq_zero.mpr (fun e he => by
          rcases mem_emitCondition he with ⟨l, rfl⟩
          simp [Event.isKey])
      have h2 : s.emitAny.countP Event.isKey = 0 :=
        List.countP_eq_zero.mpr (fun e he => by
          rcases mem_emitAny he with ⟨l, rfl⟩
          simp [Event.isKey])
      rw [h1, h2]

/-- C2 amended witness: the event-driven cycle on a concrete store fires
the registered key listener exactly once. -/
theorem C2_keylistener_per_batch_witness :
    (c2State.handleConfigChange c2NewMap).2.countP (Event.isKeyFor 0 "b") = 1 :=
  (C2_keylistener_per_batch c2State c2NewMap "b" 0 (by decide) (by decide)).1

/-- C3 counterexample: an event-driven synchronization cycle whose
ChangeBatch is empty still invokes the registered any-listener once,
because the storage-change handler fires emitAny unconditionally. -/
theorem C3_counterexample :
    diffKeys c3NewMap c3State.config = []
    ∧ c3State.anyListeners.countP (fun x => decide (x = 0)) = 1
    ∧ (c3State.onStorageChanged [("config", c3NewMap)]).2.countP
        (Event.isAnyFor 0) = 1 := by
  decide

/-- C3 amended: an any-listener fires exactly once per local set call,
exactly once per event-driven cycle carrying the config entry regardless
of whether the ChangeBatch is empty, exactly once per polled cycle with a
non-empty ChangeBatch, and never on a polled cycle with an empty
ChangeBatch; it never fires once per changed key. -/
theorem C3_anylistener_per_mutation (s : ConfigInstance) :
    (∀ (k : String) (v : ConfigData) (aid : Nat),
        (s.set k v).2.countP (Event.isAnyFor aid)
          = s.anyListeners.countP (fun x => decide (x = aid)))
    ∧ (∀ (newConfig : ConfigObject) (aid : Nat),
        (s.handleConfigChange newConfig).2.countP (Event.isAnyFor aid)
          = s.anyListeners.countP (fun x => decide (x = aid)))
    ∧ (∀ cfg : ConfigObject, diffKeys cfg s.config = [] → (s.syncTick cfg).2 = [])
    ∧ (∀ (cfg : ConfigObject) (aid : Nat), diffKeys cfg s.config ≠ [] →
        (s.syncTick cfg).2.countP (Event.isAnyFor aid)
          = s.anyListeners.countP (fun x => decide (x = aid))) := by
  have hemitz : ∀ (k : String) (d : Option ConfigData) (aid : Nat),
      (s.emit k d).countP (Event.isAnyFor aid) = 0 := fun k d aid =>
    List.countP_eq_zero.mpr (fun e he => by
      rcases mem_emit he with ⟨l, rfl⟩
      simp [Event.isAnyFor])
  have hcondz : ∀ (cs : List String) (aid : Nat),
      (s.emitCondition cs).countP (Event.isAnyFor aid) = 0 := fun cs aid =>
    List.countP_eq_zero.mpr (fun e he => by
      rcases mem_emitCondition he with ⟨l, rfl⟩
      simp [Event.isAnyFor])
  have hkeyz : ∀ (newConfig : ConfigObject) (l : List String) (aid : Nat),
      (l.flatMap (fun k => s.emit k (alGet newConfig k))).countP
        (Event.isAnyFor aid) = 0 := fun newConfig l aid =>
    List.countP_eq_zero.mpr (fun e he => by
      rcases mem_keyEvents he with ⟨lid, k, _, rfl⟩
      simp [Event.isAnyFor])
  refine ⟨?_, ?_, ?_, ?_⟩
  · intro k v aid
    rw [set_trace, List.countP_append, hemitz, countP_emitAny_isAnyFor,
      Nat.zero_add]
  · intro newConfig aid
    rw [handleConfigChange_trace, List.countP_append, List.countP_append,
      hkeyz, hcondz, countP_emitAny_isAnyFor, Nat.zero_add, Nat.add_zero]
  · intro cfg h
    rw [syncTick_nil s cfg h]
  · intro cfg aid h
    rw [syncTick_trace_pos s cfg h, List.countP_append, hcondz,
      countP_emitAny_isAnyFor, Nat.zero_add]

/-- C3 amended witness: on a concrete store, an empty-batch polled tick
fires nothing and a non-empty-batch polled tick fires the any-listener
according to its registration count. -/
theorem C3_anylistener_per_mutation_witness :
    (c3State.syncTick c3NewMap).2 = []
    ∧ (c3State.syncTick c3DiffMap).2.countP (Event.isAnyFor 0)
        = c3State.anyListeners.countP (fun x => decide (x = 0)) :=
  ⟨(C3_anylistener_per_mutation c3State).2.2.1 c3NewMap (by decide),
   (C3_anylistener_per_mutation c3State).2.2.2 c3DiffMap 0 (by decide)⟩

theorem ordering_of_parts (A B C : List Event)
    (hA : ∀ e ∈ A, e.isKey = true ∧ e.isAny = false ∧ e.isCond = false)
    (hB : ∀ e ∈ B, e.isAny = true ∧ e.isKey = false ∧ e.isCond = false)
    (hC : ∀ e ∈ C, e.isCond = true ∧ e.isKey = false ∧ e.isAny = false) :
    keysThenAnys (A ++ B ++ C) = true ∧ anysThenConds (A ++ B ++ C) = true := by
  constructor
  · simp only [keysThenAnys, decide_eq_true_eq, List.filter_append]
    have h1 : A.filter (fun e => e.isKey || e.isAny) = A :=
      filter_eq_self_of_true (fun e he => by rw [(hA e he).1]; rfl)
    have h2 : B.filter (fun e => e.isKey || e.isAny) = B :=
      filter_eq_self_of_true (fun e he => by rw [(hB e he).1, (hB e he).2.1]; rfl)
    have h3 : C.filter (fun e => e.isKey || e.isAny) = [] :=
      filter_eq_nil_of_false (fun e he => by rw [(hC e he).2.1, (hC e he).2.2]; rfl)
    have h4 : A.filter Event.isKey = A :=
      filter_eq_self_of_true (fun e he => (hA e he).1)
    have h5 : B.filter Event.isKey = [] :=
      filter_eq_nil_of_false (fun e he => (hB e he).2.1)
    have h6 : C.filter Event.isKey = [] :=
      filter_eq_nil_of_false (fun e he => (hC e he).2.1)
    have h7 : A.filter Event.isAny = [] :=
      filter_eq_nil_of_false (fun e he => (hA e he).2.1)
    have h8 : B.filter Event.isAny = B :=
      filter_eq_self_of_true (fun e he => (hB e he).1)
    have h9 : C.filter Event.isAny = [] :=
      filter_eq_nil_of_false (fun e he => (hC e he).2.2)
    rw [h1, h2, h3, h4, h5, h6, h7, h8, h9]
    simp
  · simp only [anysThenConds, decide_eq_true_eq, List.filter_append]
    have h1 : A.filter (fun e => e.isAny || e.isCond) = [] :=
      filter_eq_nil_of_false (fun e he => by rw [(hA e he).2.1, (hA e he).2.2]; rfl)
    have h2 : B.filter (fun e => e.isAny || e.isCond) = B :=
      filter_eq_self_of_true (fun e he => by rw [(hB e he).1]; rfl)
    have h3 : C.filter (fun e => e.isAny || e.isCond) = C :=
      filter_eq_self_of_true (fun e he => by rw [(hC e he).1, (hC e he).2.2]; rfl)
    have h4 : A.filter Event.isAny = [] :=
      filter_eq_nil_of_false (fun e he => (hA e he).2.1)
    have h5 : B.filter Event.isAny = B :=
      filter_eq_self_of_true (fun e he => (hB e he).1)
    have h6 : C.filter Event.isAny = [] :=
      filter_eq_nil_of_false (fun e he => (hC e he).2.2)
    have h7 : A.filter Event.isCond = [] :=
      filter_eq_nil_of_false (fun e he => (hA e he).2.2)
    have h8 : B.filter Event.isCond = [] :=
      filter_eq_nil_of_false (fun e he => (hB e he).2.2)
    have h9 : C.filter Event.isCond = C :=
      filter_eq_self_of_true (fun e he => (hC e he).1)
    rw [h1, h2, h3, h4, h5, h6, h7, h8, h9]
    simp

theorem condsThenAnys_of_parts (C B : List Event)
    (hC : ∀ e ∈ C, e.isCond = true ∧ e.isAny = false)
    (hB : ∀ e ∈ B, e.isAny = true ∧ e.isCond = false) :
    condsThenAnys (C ++ B) = true := by
  simp only [condsThenAnys, decide_eq_true_eq, List.filter_append]
  have h1 : C.filter (fun e => e.isAny || e.isCond) = C :=
    filter_eq_self_of_true (fun e he => by rw [(hC e he).1, (hC e he).2]; rfl)
  have h2 : B.filter (fun e => e.isAny || e.isCond) = B :=
    filter_eq_self_of_true (fun e he => by rw [(hB e he).1]; rfl)
  have h3 : C.filter Event.isCond = C :=
    filter_eq_self_of_true (fun e he => (hC e he).1)
  have h4 : B.filter Event.isCond = [] :=
    filter_eq_nil_of_false (fun e he => (hB e he).2)
  have h5 : C.filter Event.isAny = [] :=
    filter_eq_nil_of_false (fun e he => (hC e he).2)
  have h6 : B.filter Event.isAny = B :=
    filter_eq_self_of_true (fun e he => (hB e he).1)
  rw [h1, h2, h3, h4, h5, h6]
  simp

/-- C4 counterexample: in a polled synchronization cycle with a non-empty
ChangeBatch the condition listener fires before the any-listener, so the
claimed ordering of any-listeners before condition listeners fails for
the polled strategy. -/
theorem C4_counterexample :
    diffKeys c4NewMap c4State.config ≠ []
    ∧ (c4State.syncTick c4NewMap).2 = [Event.cond 2, Event.any 0]
    ∧ anysThenConds (c4State.syncTick c4NewMap).2 = false := by
  decide

/-- C4 amended: in an event-driven cycle all key-listener invocations
precede all any-listener invocations, which precede all
condition-listener invocations; in a polled cycle no key listener fires
and every condition-listener invocation precedes every any-listener
invocation. -/
theorem C4_listener_ordering (s : ConfigInstance) (newConfig cfg : ConfigObject) :
    keysThenAnys (s.handleConfigChange newConfig).2 = true
    ∧ anysThenConds (s.handleConfigChange newConfig).2 = true
    ∧ condsThenAnys (s.syncTick cfg).2 = true
    ∧ (s.syncTick cfg).2.countP Event.isKey = 0 := by
  have hparts := ordering_of_parts
    ((diffKeys newConfig s.config).flatMap (fun k => s.emit k (alGet newConfig k)))
    s.emitAny (s.emitCondition (diffKeys newConfig s.config))
    (fun _ he => isKey_of_mem_keyEvents he)
    (fun _ he => isAny_of_mem_emitAny he)
    (fun _ he => isCond_of_mem_emitCondition he)
  refine ⟨?_, ?_, ?_, ?_⟩
  · rw [handleConfigChange_trace]
    exact hparts.1
  · rw [handleConfigChange_trace]
    exact hparts.2
  · by_cases h : diffKeys cfg s.config = []
    · rw [syncTick_nil s cfg h]
      rfl
    · rw [syncTick_trace_pos s cfg h]
      exact condsThenAnys_of_parts _ _
        (fun _ he => ⟨(isCond_of_mem_emitCondition he).1,
          (isCond_of_mem_emitCondition he).2.2⟩)
        (fun _ he => ⟨(isAny_of_mem_emitAny he).1,
          (isAny_of_mem_emitAny he).2.2⟩)
  · by_cases h : diffKeys cfg s.config = []
    · rw [syncTick_nil s cfg h]
      rfl
    · rw [syncTick_trace_pos s cfg h, List.countP_append]
      have h1 : (s.emitCondition (diffKeys cfg s.config)).countP Event.isKey = 0 :=
        List.countP_eq_zero.mpr (fun e he => by
          rcases mem_emitCondition he with ⟨l, rfl⟩
          simp [Event.isKey])
      have h2 : s.emitAny.countP Event.isKey = 0 :=
        List.countP_eq_zero.mpr (fun e he => by
          rcases mem_emitAny he with ⟨l, rfl⟩
          simp [Event.isKey])
      rw [h1, h2]

/-- C5: after a local set of value v under key k, reading k yields v, a key
listener registered once for k fires exactly once and every invocation it
receives for k carries v, an any-listener registered once fires exactly
once, and no condition listener fires. -/
theorem C5_set_spec (s : ConfigInstance) (k : String) (v : ConfigData) (lid aid : Nat)
    (hl : ((alGet s.listeners k).getD []).countP (fun x => decide (x = lid)) = 1)
    (ha : s.anyListeners.countP (fun x => decide (x = aid)) = 1) :
    (s.set k v).1.get k none = some v
    ∧ (s.set k v).2.countP (Event.isKeyFor lid k) = 1
    ∧ (∀ d, Event.key lid k d ∈ (s.set k v).2 → d = some v)
    ∧ (s.set k v).2.countP (Event.isAnyFor aid) = 1
    ∧ (s.set k v).2.countP Event.isCond = 0 := by
  refine ⟨?_, ?_, ?_, ?_, ?_⟩
  · have hget : alGet (s.set k v).1.config k = some v := alGet_alSet_self s.config k v
    unfold ConfigInstance.get
    rw [hget]
  · rw [set_trace, List.countP_append, countP_emit_isKeyFor_self, hl]
    have h1 : s.emitAny.countP (Event.isKeyFor lid k) = 0 :=
      List.countP_eq_zero.mpr (fun e he => by
        rcases mem_emitAny he with ⟨l, rfl⟩
        simp [Event.isKeyFor])
    rw [h1]
  · intro d hd
    rw [set_trace] at hd
    rcases List.mem_append.mp hd with hd | hd
    · rcases mem_emit hd with ⟨l, heq⟩
      injection heq
    · rcases mem_emitAny hd with ⟨l, heq⟩
      simp at heq
  · rw [set_trace, List.countP_append, countP_emitAny_isAnyFor, ha]
    have h1 : (s.emit k (some v)).countP (Event.isAnyFor aid) = 0 :=
      List.countP_eq_zero.mpr (fun e he => by
        rcases mem_emit he with ⟨l, rfl⟩
        simp [Event.isAnyFor])
    rw [h1]
  · rw [set_trace, List.countP_append]
    have h1 : (s.emit k (some v)).countP Event.isCond = 0 :=
      List.countP_eq_zero.mpr (fun e he => by
        rcases mem_emit he with ⟨l, rfl⟩
        simp [Event.isCond])
    have h2 : s.emitAny.countP Event.isCond = 0 :=
      List.countP_eq_zero.mpr (fun e he => by
        rcases mem_emitAny he with ⟨l, rfl⟩
        simp [Event.isCond])
    rw [h1, h2]

/-- C5 witness: a concrete set call on a concrete store. -/
theorem C5_set_spec_witness :
    (c5State.set "x" (ConfigData.bool true)).1.get "x" none
        = some (ConfigData.bool true)
    ∧ (c5State.set "x" (ConfigData.bool true)).2.countP (Event.isKeyFor 3 "x") = 1
    ∧ (c5State.set "x" (ConfigData.bool true)).2.countP (Event.isAnyFor 4) = 1
    ∧ (c5State.set "x" (ConfigData.bool true)).2.countP Event.isCond = 0 :=
  ⟨(C5_set_spec c5State "x" (ConfigData.bool true) 3 4 (by decide) (by decide)).1,
   (C5_set_spec c5State "x" (ConfigData.bool true) 3 4 (by decide) (by decide)).2.1,
   (C5_set_spec c5State "x" (ConfigData.bool true) 3 4 (by decide) (by decide)).2.2.2.1,
   (C5_set_spec c5State "x" (ConfigData.bool true) 3 4 (by decide) (by decide)).2.2.2.2⟩

/-- C8 counterexample: the registry holds only the pair with condition
identity 1 and callback identity 2; removing the pair with condition
identity 3 and callback identity 2, which was never added, still empties
the registry, because the source filter keeps only entries differing in
both components. -/
theorem C8_counterexample :
    c8State.conditionListeners.map (fun cl => (cl.1.id, cl.2)) = [(1, 2)]
    ∧ (c8State.removeConditionListener 3 2).conditionListeners.length = 0 := by
  decide

/-- C8 amended: removeListener and removeAnyListener delete exactly the
entries identity-matched to the given listener, leave every other
registered listener in place, and removing a listener that was never
added is a no-op; removeConditionListener instead deletes every pair
whose condition or whose callback identity-matches the corresponding
argument, and removing a never-added pair is a no-op only when no
registered pair shares either component with the arguments. -/
theorem C8_removal_semantics :
    (∀ (s : ConfigInstance) (key : String) (lid : Nat) (key' : String),
        alGet (s.removeListener key lid).listeners key'
          = if key' = key
            then (alGet s.listeners key).map
              (fun ls => ls.filter (fun l => decide (l ≠ lid)))
            else alGet s.listeners key')
    ∧ (∀ (s : ConfigInstance) (key : String) (lid : Nat),
        lid ∉ (alGet s.listeners key).getD [] → s.removeListener key lid = s)
    ∧ (∀ (s : ConfigInstance) (lid : Nat),
        (s.removeAnyListener lid).anyListeners
          = s.anyListeners.filter (fun l => decide (l ≠ lid)))
    ∧ (∀ (s : ConfigInstance) (lid : Nat),
        lid ∉ s.anyListeners → s.removeAnyListener lid = s)
    ∧ (∀ (s : ConfigInstance) (cid lid : Nat),
        (s.removeConditionListener cid lid).conditionListeners
          = s.conditionListeners.filter
              (fun cl => decide (cl.1.id ≠ cid) && decide (cl.2 ≠ lid)))
    ∧ (∀ (s : ConfigInstance) (cid lid : Nat),
        (∀ cl ∈ s.conditionListeners, cl.1.id ≠ cid ∧ cl.2 ≠ lid) →
          s.removeConditionListener cid lid = s) := by
  refine ⟨?_, ?_, ?_, ?_, ?_, ?_⟩
  · intro s key lid key'
    unfold ConfigInstance.removeListener
    split
    · next heq =>
        by_cases hk : key' = key
        · subst hk
          rw [if_pos rfl, heq]
          rfl
        · rw [if_neg hk]
    · next ls heq =>
        dsimp only
        by_cases hk : key' = key
        · subst hk
          rw [if_pos rfl, heq, alGet_alSet_self]
          rfl
        · rw [if_neg hk, alGet_alSet_ne _ _ hk]
  · intro s key lid h
    unfold ConfigInstance.removeListener
    split
    · rfl
    · next ls heq =>
        rw [heq] at h
        have hf : ls.filter (fun l => decide (l ≠ lid)) = ls :=
          List.filter_eq_self.mpr
            (fun a ha => decide_eq_true (fun haeq => h (haeq ▸ ha)))
        rw [hf, alSet_of_alGet _ _ _ heq]
  · intro s lid
    rfl
  · intro s lid h
    unfold ConfigInstance.removeAnyListener
    have hf : s.anyListeners.filter (fun l => decide (l ≠ lid)) = s.anyListeners :=
      List.filter_eq_self.mpr
        (fun a ha => decide_eq_true (fun haeq => h (haeq ▸ ha)))
    rw [hf]
  · intro s cid lid
    rfl
  · intro s cid lid h
    unfold ConfigInstance.removeConditionListener
    have hf : s.conditionListeners.filter
        (fun cl => decide (cl.1.id ≠ cid) && decide (cl.2 ≠ lid))
          = s.conditionListeners :=
      List.filter_eq_self.mpr (fun cl hcl => by
        rw [decide_eq_true (h cl hcl).1, decide_eq_true (h cl hcl).2]
        rfl)
    rw [hf]

/-- C8 amended witness: removing a key listener that was never registered
from a concrete store leaves the store unchanged. -/
theorem C8_removal_semantics_witness :
    c8WState.removeListener "a" 9 = c8WState :=
  C8_removal_semantics.2.1 c8WState "a" 9 (by decide)
